import Mathlib

/-!
Verification of the sap_cloud metadata/sync subsystem.

The C++ sources (MetadataStore in src/storage/metadata.cpp, FileService /
NoteService / SyncService in the services layer, AuthManager in
auth_manager.cpp) are shallowly embedded here.  The embedded relational
database is modelled as lists of rows; each SQL statement is translated to the
corresponding list operation, keeping the exact WHERE / ON CONFLICT / JOIN /
COUNT semantics of the statement text.  External collaborators (filesystem
bytes, content hashing, signature verification, key parsing, the FTS match
relation) are parameters supplied through environment records, since they are
not part of this repository.  Storage-level I/O failures (disk errors) are not
modelled: every claim below is about the logic layered on top of a functioning
database, and the C++ code propagates those errors unchanged.

Timestamps are `Int` (the C++ `i64`): file-layer operations use milliseconds
(`sync::now_ms()`), the auth layer uses seconds (`now_ms() / 1000`); each
embedded operation takes the already-converted `now` value as an argument.
-/

namespace SapCloud

/-- A row of the `files` table (C++ `sync::FileMetadata`). -/
structure FileRow where
  path : String
  hash : String
  size : Int
  mtime : Int
  created_at : Int
  updated_at : Int
  is_deleted : Bool
deriving Repr, DecidableEq

/-- A row of the `notes` table. -/
structure NoteRow where
  id : String
  path : String
  title : String
  hash : String
  created_at : Int
  updated_at : Int
  is_deleted : Bool
deriving Repr, DecidableEq

/-- A row of the `tags` table. -/
structure TagRow where
  id : Int
  name : String
deriving Repr, DecidableEq

/-- A row of the `note_tags` junction table. -/
structure NoteTagRow where
  note_id : String
  tag_id : Int
deriving Repr, DecidableEq

/-- A row of the `notes_fts` full-text table. -/
structure FtsRow where
  note_id : String
  title : String
  content : String
deriving Repr, DecidableEq

/-- A row of the `auth_tokens` table. -/
structure TokenRow where
  token : String
  created_at : Int
  expires_at : Int
  last_used : Option Int
deriving Repr, DecidableEq

/-- A row of the `auth_challenges` table. -/
structure ChallengeRow where
  challenge : String
  public_key : String
  expires_at : Int
deriving Repr, DecidableEq

/-- The whole embedded database owned by `MetadataStore`. -/
structure Store where
  files : List FileRow := []
  notes : List NoteRow := []
  tags : List TagRow := []
  note_tags : List NoteTagRow := []
  fts : List FtsRow := []
  tokens : List TokenRow := []
  challenges : List ChallengeRow := []
deriving Repr, DecidableEq

/-- `sync::TagInfo`. -/
structure TagInfo where
  name : String
  count : Int
deriving Repr, DecidableEq

/-- A note row together with its tag names, as produced by the note queries
(`sync::NoteMetadata`). -/
structure NoteMetadata where
  id : String
  path : String
  title : String
  hash : String
  tags : List String
  created_at : Int
  updated_at : Int
  is_deleted : Bool
deriving Repr, DecidableEq

namespace MetadataStore

/-- `MetadataStore::get_file`: `SELECT ... FROM files WHERE path = ?`
(`fetch_one`, so the first matching row; `path` is UNIQUE in the schema). -/
def get_file (s : Store) (path : String) : Option FileRow :=
  s.files.find? (fun r => r.path == path)

/-- `MetadataStore::get_all_files`: `SELECT ... FROM files` with
`WHERE updated_at > ?` appended exactly when `since` is present.  No
`is_deleted` filter: tombstones are returned. -/
def get_all_files (s : Store) (since : Option Int) : List FileRow :=
  match since with
  | none => s.files
  | some t => s.files.filter (fun r => t < r.updated_at)

/-- `MetadataStore::upsert_file`: `INSERT INTO files ... ON CONFLICT(path) DO
UPDATE SET hash, size, mtime, updated_at, is_deleted = excluded.*` — the
conflicting row keeps its `created_at` (and rowid), everything else is taken
from the supplied record. -/
def upsert_file (s : Store) (m : FileRow) : Store :=
  if s.files.any (fun r => r.path == m.path) then
    { s with files := s.files.map (fun r =>
        if r.path == m.path then
          { r with hash := m.hash, size := m.size, mtime := m.mtime,
                   updated_at := m.updated_at, is_deleted := m.is_deleted }
        else r) }
  else
    { s with files := s.files ++ [m] }

/-- `MetadataStore::mark_deleted`: `UPDATE files SET is_deleted = 1,
updated_at = ? WHERE path = ?` with `?1 = now_ms()`.  An UPDATE matching zero
rows is still a successful statement, so the C++ call reports success even
for paths that have no record. -/
def mark_deleted (s : Store) (path : String) (now : Int) : Store :=
  { s with files := s.files.map (fun r =>
      if r.path == path then { r with is_deleted := true, updated_at := now }
      else r) }

/-- Tag names attached to a note, via the `note_tags` / `tags` joins
(`GROUP_CONCAT(t.name)` parsed back into a list by the C++ code). -/
def tags_of_note (s : Store) (id : String) : List String :=
  (s.note_tags.filter (fun nt => nt.note_id == id)).filterMap
    (fun nt => (s.tags.find? (fun t => t.id == nt.tag_id)).map (fun t => t.name))

/-- Row-to-record conversion used by the note queries. -/
def note_meta (s : Store) (n : NoteRow) : NoteMetadata :=
  { id := n.id, path := n.path, title := n.title, hash := n.hash,
    tags := tags_of_note s n.id, created_at := n.created_at,
    updated_at := n.updated_at, is_deleted := n.is_deleted }

/-- Insertion step for sorting query results. -/
def ordInsert (le : α → α → Bool) (a : α) : List α → List α
  | [] => [a]
  | b :: l => if le a b then a :: b :: l else b :: ordInsert le a l

/-- Insertion sort used to model the `ORDER BY` clauses. -/
def ordSort (le : α → α → Bool) : List α → List α
  | [] => []
  | a :: l => ordInsert le a (ordSort le l)

/-- `ORDER BY n.updated_at DESC`. -/
def byUpdatedDesc (a b : NoteMetadata) : Bool :=
  b.updated_at ≤ a.updated_at

/-- `MetadataStore::get_note`: notes joined with their tags,
`WHERE n.id = ?` — no tombstone filter, deleted notes are returned too. -/
def get_note (s : Store) (id : String) : Option NoteMetadata :=
  (s.notes.find? (fun n => n.id == id)).map (note_meta s)

/-- `MetadataStore::get_all_notes`: `WHERE n.is_deleted = 0 ... ORDER BY
n.updated_at DESC`, tags resolved by the join. -/
def get_all_notes (s : Store) : List NoteMetadata :=
  ordSort byUpdatedDesc
    ((s.notes.filter (fun n => !n.is_deleted)).map (note_meta s))

/-- `MetadataStore::get_notes_by_tag`: inner join on `note_tags`/`tags` with
`t.name = ? AND n.is_deleted = 0`, grouped by note, ordered by
`updated_at DESC` (the C++ row loop sets `is_deleted = false` directly). -/
def get_notes_by_tag (s : Store) (tag : String) : List NoteMetadata :=
  ordSort byUpdatedDesc
    ((s.notes.filter (fun n =>
        !n.is_deleted &&
        (s.note_tags.any (fun nt =>
          nt.note_id == n.id &&
          (s.tags.any (fun t => t.id == nt.tag_id && t.name == tag)))))).map
      (note_meta s))

/-- `MetadataStore::search_notes`: join with `notes_fts` on `note_id`,
`WHERE notes_fts MATCH ? AND n.is_deleted = 0`.  The MATCH relation and the
relevance ranking are internal to the FTS engine; the match predicate is a
parameter and the engine's `ORDER BY rank` is modelled as the table order of
the surviving rows. -/
def search_notes (ftsMatch : FtsRow → String → Bool) (s : Store)
    (query : String) : List NoteMetadata :=
  (s.notes.filter (fun n =>
      !n.is_deleted &&
      (s.fts.any (fun f => f.note_id == n.id && ftsMatch f query)))).map
    (note_meta s)

/-- `MetadataStore::remove_fts`: `DELETE FROM notes_fts WHERE note_id = ?`. -/
def remove_fts (s : Store) (id : String) : Store :=
  { s with fts := s.fts.filter (fun f => f.note_id != id) }

/-- `MetadataStore::delete_note`: `UPDATE notes SET is_deleted = 1,
updated_at = ? WHERE id = ?`, then `remove_fts(id)`.  The `note_tags` links of
the note are left in place. -/
def delete_note (s : Store) (id : String) (now : Int) : Store :=
  remove_fts
    { s with notes := s.notes.map (fun n =>
        if n.id == id then { n with is_deleted := true, updated_at := now }
        else n) }
    id

/-- Sort order of `get_all_tags`: `ORDER BY count DESC, t.name`. -/
def tagOrder (a b : TagInfo) : Bool :=
  b.count < a.count || (a.count == b.count && a.name ≤ b.name)

/-- `MetadataStore::get_all_tags`:

  SELECT t.name, COUNT(nt.note_id) as count
  FROM tags t
  LEFT JOIN note_tags nt ON t.id = nt.tag_id
  LEFT JOIN notes n ON nt.note_id = n.id AND n.is_deleted = 0
  GROUP BY t.id HAVING count > 0 ORDER BY count DESC, t.name

Row trace: each `note_tags` link of a tag yields exactly one output row of
the group (the second LEFT JOIN either attaches the single non-deleted note
with that id or pads with NULL note columns — a LEFT JOIN never drops the
row), so `COUNT(nt.note_id)`, which counts non-NULL `nt.note_id` values,
equals the number of `note_tags` links of the tag, deleted notes included; a
tag with no links gets one all-NULL `nt` row and count 0, removed by HAVING. -/
def get_all_tags (s : Store) : List TagInfo :=
  ordSort tagOrder
    (s.tags.filterMap (fun t =>
      let cnt := (s.note_tags.filter (fun nt => nt.tag_id == t.id)).length
      if cnt > 0 then some { name := t.name, count := (cnt : Int) } else none))

/-- `MetadataStore::store_token`: `INSERT INTO auth_tokens (token, created_at,
expires_at) VALUES (?, ?, ?)` with `created_at = now` (seconds) and NULL
`last_used`. -/
def store_token (s : Store) (token : String) (expires_at now : Int) : Store :=
  { s with tokens := s.tokens ++
      [{ token := token, created_at := now, expires_at := expires_at,
         last_used := none }] }

/-- `MetadataStore::validate_token`: `SELECT 1 FROM auth_tokens WHERE token =
? AND expires_at > ?` — no row gives `false` (not an error); a row gives
`true` after `UPDATE auth_tokens SET last_used = ? WHERE token = ?`.  The
returned pair is (result, store after the call). -/
def validate_token (s : Store) (token : String) (now : Int) : Bool × Store :=
  match s.tokens.find? (fun r => r.token == token && decide (now < r.expires_at)) with
  | none => (false, s)
  | some _ =>
    (true, { s with tokens := s.tokens.map (fun r =>
        if r.token == token then { r with last_used := some now } else r) })

/-- `MetadataStore::store_challenge`: plain INSERT of the challenge row. -/
def store_challenge (s : Store) (challenge public_key : String)
    (expires_at : Int) : Store :=
  { s with challenges := s.challenges ++
      [{ challenge := challenge, public_key := public_key,
         expires_at := expires_at }] }

/-- `MetadataStore::validate_challenge`: `SELECT 1 FROM auth_challenges WHERE
challenge = ? AND public_key = ? AND expires_at > ?`; on a match the row is
consumed by `DELETE FROM auth_challenges WHERE challenge = ?` and the call
returns `true`; otherwise `false` with the table untouched. -/
def validate_challenge (s : Store) (challenge public_key : String)
    (now : Int) : Bool × Store :=
  match s.challenges.find? (fun c =>
      c.challenge == challenge && c.public_key == public_key &&
      decide (now < c.expires_at)) with
  | none => (false, s)
  | some _ =>
    (true, { s with challenges :=
        s.challenges.filter (fun c => c.challenge != challenge) })

end MetadataStore

/-! ## Content Store (external collaborator `fs::Filesystem`)

Byte-addressable file contents and mtimes under the sandbox root, as consumed
through the narrow interface of the spec (read / write / remove / mtime /
set_mtime). -/

/-- The collaborator-owned filesystem state: contents and mtimes by path. -/
structure FsState where
  content : List (String × List Nat) := []
  mtimes : List (String × Int) := []
deriving Repr, DecidableEq

/-- `Filesystem::read`. -/
def fsRead (fs : FsState) (path : String) : Option (List Nat) :=
  (fs.content.find? (fun e => e.1 == path)).map (fun e => e.2)

/-- `Filesystem::write`: replaces the bytes at `path`; the OS stamps the file
with the write-time mtime `wt`. -/
def fsWrite (fs : FsState) (path : String) (bytes : List Nat) (wt : Int) : FsState :=
  { content := (path, bytes) :: fs.content.filter (fun e => e.1 != path),
    mtimes := (path, wt) :: fs.mtimes.filter (fun e => e.1 != path) }

/-- `Filesystem::set_mtime`. -/
def fsSetMtime (fs : FsState) (path : String) (t : Int) : FsState :=
  { fs with mtimes := (path, t) :: fs.mtimes.filter (fun e => e.1 != path) }

/-- `Filesystem::mtime`. -/
def fsMtime (fs : FsState) (path : String) : Option Int :=
  (fs.mtimes.find? (fun e => e.1 == path)).map (fun e => e.2)

/-- `Filesystem::remove`. -/
def fsRemove (fs : FsState) (path : String) : FsState :=
  { content := fs.content.filter (fun e => e.1 != path),
    mtimes := fs.mtimes.filter (fun e => e.1 != path) }

/-- Byte-to-text decoding for `read_string`. -/
def decodeBytes (l : List Nat) : String :=
  String.mk (l.map Char.ofNat)

/-- `Filesystem::read_string`. -/
def fsReadString (fs : FsState) (path : String) : Option String :=
  (fsRead fs path).map decodeBytes

/-- Combined state the service layer acts on: the Content Store plus the
Metadata Store. -/
structure World where
  fs : FsState := {}
  store : Store := {}
deriving Repr, DecidableEq

/-- Environment for the service layer: the wall clock, the injected outcomes
of the collaborator filesystem calls, and the external content-hash and
FTS-match functions (`sap_sync/hash`, fts5). -/
structure SvcEnv where
  now : Int := 0
  writeOk : Bool := true
  writeErr : String := "write failed"
  setMtimeOk : Bool := true
  setMtimeErr : String := "set mtime failed"
  removeOk : Bool := true
  removeErr : String := "remove failed"
  writeMtime : Int := 0
  hash_bytes : List Nat → String := fun _ => ""
  ftsMatch : FtsRow → String → Bool := fun _ _ => false
  generate_preview : String → String := fun s => s

namespace FileService

/-- `FileService::build_metadata`: hash and size from the bytes, mtime from
the filesystem (falling back to `now_ms()` when the stat fails, i.e. when the
path has no mtime), both timestamps `now_ms()`, not deleted. -/
def build_metadata (env : SvcEnv) (w : World) (path : String)
    (content : List Nat) : FileRow :=
  { path := path, hash := env.hash_bytes content,
    size := (content.length : Int),
    mtime := (fsMtime w.fs path).getD env.now,
    created_at := env.now, updated_at := env.now, is_deleted := false }

/-- `FileService::get_file`: NotFound when the metadata record is absent or
tombstoned, even if bytes still exist; otherwise read the bytes. -/
def get_file (w : World) (path : String) : Except String (List Nat) :=
  match MetadataStore.get_file w.store path with
  | none => .error "File not found"
  | some r =>
    if r.is_deleted then .error "File not found"
    else
      match fsRead w.fs path with
      | some bytes => .ok bytes
      | none => .error "read failed"

/-- `FileService::put_file`: look up the existing record to preserve
`created_at` (tombstoned records included — `get_file` on the store returns
them); write the bytes to the Content Store first, returning its error with
the metadata untouched when the write fails; apply the client-supplied mtime
to the stored content; build the metadata (hash and size from the bytes),
restore `created_at`, override `mtime` with the client value when given; and
upsert.  Returns the stored record and the post-call world. -/
def put_file (env : SvcEnv) (w : World) (path : String) (content : List Nat)
    (client_mtime : Option Int) : Except String FileRow × World :=
  let created_at :=
    match MetadataStore.get_file w.store path with
    | some r => r.created_at
    | none => env.now
  if !env.writeOk then (.error env.writeErr, w)
  else
    let w1 : World := { w with fs := fsWrite w.fs path content env.writeMtime }
    if client_mtime.isSome && !env.setMtimeOk then (.error env.setMtimeErr, w1)
    else
      let w2 : World :=
        match client_mtime with
        | some t => { w1 with fs := fsSetMtime w1.fs path t }
        | none => w1
      let base := build_metadata env w2 path content
      let meta := { base with created_at := created_at,
                              mtime := client_mtime.getD base.mtime }
      (.ok meta, { w2 with store := MetadataStore.upsert_file w2.store meta })

/-- `FileService::delete_file`: best-effort `m_Fs.remove` (a failure is only
logged), then the mandatory `mark_deleted` tombstone write. -/
def delete_file (env : SvcEnv) (w : World) (path : String) :
    Except String Unit × World :=
  let w1 : World := if env.removeOk then { w with fs := fsRemove w.fs path } else w
  (.ok (), { w1 with store := MetadataStore.mark_deleted w1.store path env.now })

/-- `FileService::list_files` = `get_all_files()` with no `since`. -/
def list_files (w : World) : List FileRow :=
  MetadataStore.get_all_files w.store none

/-- `FileService::get_changed_since` = `get_all_files(since)`. -/
def get_changed_since (w : World) (since : Int) : List FileRow :=
  MetadataStore.get_all_files w.store (some since)

end FileService

/-- `sync::SyncState`. -/
structure SyncState where
  server_time : Int
  files : List FileRow
deriving Repr, DecidableEq

namespace SyncService

/-- `SyncService::get_sync_state`: `server_time` is the call-time clock;
`files` is `get_changed_since(since)` when a cursor is given, otherwise the
full `list_files()` snapshot (notes are stored as files, so no separate note
list is added). -/
def get_sync_state (w : World) (since : Option Int) (now : Int) : SyncState :=
  { server_time := now,
    files :=
      match since with
      | some t => FileService.get_changed_since w t
      | none => FileService.list_files w }

end SyncService

/-- `sync::NoteListItem`. -/
structure NoteListItem where
  id : String
  title : String
  tags : List String
  updated_at : Int
  preview : String
deriving Repr, DecidableEq

/-- `sync::NoteListResponse`. -/
structure NoteListResponse where
  notes : List NoteListItem := []
  total : Int := 0
deriving Repr, DecidableEq

namespace NoteService

/-- `NoteService::ListOptions` (header defaults: limit 50, offset 0). -/
structure ListOptions where
  tag : Option String := none
  search : Option String := none
  limit : Int := 50
  offset : Int := 0
deriving Repr, DecidableEq

/-- `static_cast<size_t>` on an `i64` value: reduction modulo 2^64. -/
def castSize (x : Int) : Nat :=
  (x % (2 : Int) ^ 64).toNat

/-- `NoteService::to_list_item`. -/
def to_list_item (env : SvcEnv) (meta : NoteMetadata) (content : String) :
    NoteListItem :=
  { id := meta.id, title := meta.title, tags := meta.tags,
    updated_at := meta.updated_at, preview := env.generate_preview content }

/-- The body of the `list_notes` pagination loop for one note: load the
content for the preview (empty string when the read fails) and convert. -/
def note_item (env : SvcEnv) (w : World) (meta : NoteMetadata) : NoteListItem :=
  to_list_item env meta ((fsReadString w.fs meta.path).getD "")

/-- The filter branch of `NoteService::list_notes`: `search` takes
precedence, then `tag`, then all notes. -/
def filtered_notes (env : SvcEnv) (s : Store) (o : ListOptions) :
    List NoteMetadata :=
  match o.search with
  | some q => MetadataStore.search_notes env.ftsMatch s q
  | none =>
    match o.tag with
    | some t => MetadataStore.get_notes_by_tag s t
    | none => MetadataStore.get_all_notes s

/-- `NoteService::list_notes`: pick the filtered list, report its full size
as `total`, then copy the window `[start, end)` where `start =
static_cast<size_t>(offset)` and `end = min(start +
static_cast<size_t>(limit), notes.size())` (the `size_t` sum wraps modulo
2^64; when `end < start` the loop body never runs). -/
def list_notes (env : SvcEnv) (w : World) (o : ListOptions) : NoteListResponse :=
  let notes := filtered_notes env w.store o
  let start := castSize o.offset
  let stop := min ((start + castSize o.limit) % 2 ^ 64) notes.length
  { total := (notes.length : Int),
    notes := ((notes.drop start).take (stop - start)).map (note_item env w) }

/-- `NoteService::delete_note`: `get_note(id)` (tombstoned rows are still
found); `Note not found` when there is no row; then `m_Fs.remove` whose
failure is returned (it aborts the call before the tombstone); then the
`MetadataStore::delete_note` tombstone + FTS removal. -/
def delete_note (env : SvcEnv) (w : World) (id : String) :
    Except String Unit × World :=
  match MetadataStore.get_note w.store id with
  | none => (.error "Note not found", w)
  | some n =>
    if !env.removeOk then (.error env.removeErr, w)
    else
      let w1 : World := { w with fs := fsRemove w.fs n.path }
      (.ok (), { w1 with store := MetadataStore.delete_note w1.store id env.now })

end NoteService

/-- `sync::VerifyRequest`. -/
structure VerifyRequest where
  challenge : String
  public_key : String
  signature : String
deriving Repr, DecidableEq

/-- The `{token, expires_at}` pair returned by `verify_challenge`
(`sync::AuthToken`). -/
structure AuthTokenResp where
  token : String
  expires_at : Int
deriving Repr, DecidableEq

/-- Environment of the Auth Manager: the wall clock in seconds
(`now_ms() / 1000`), the external key parser and signature verifier
(`sap_sync/auth`), the generated random token, and the configured token
lifetime. -/
structure AuthEnv where
  now : Int := 0
  parse_ok : String → Bool := fun _ => true
  sig_ok : String → String → String → Bool := fun _ _ _ => false
  new_token : String := "tok"
  token_expiry : Int := 3600

namespace AuthManager

/-- `AuthManager::verify_challenge`: consume-on-lookup
`validate_challenge(challenge, public_key)` first (an unmatched or expired
challenge fails here); then parse the public key; then verify the signature
of the challenge bytes; on success generate a token, store it with
`expires_at = now + token_expiry` and return it.  The pair carries the
post-call store: every branch after the lookup keeps the consumed-challenge
state. -/
def verify_challenge (env : AuthEnv) (s : Store) (req : VerifyRequest) :
    Except String AuthTokenResp × Store :=
  match MetadataStore.validate_challenge s req.challenge req.public_key env.now with
  | (false, s1) => (.error "Invalid or expired challenge", s1)
  | (true, s1) =>
    if !env.parse_ok req.public_key then (.error "Invalid public key", s1)
    else if !env.sig_ok req.public_key req.challenge req.signature then
      (.error "Signature verification failed", s1)
    else
      let expires := env.now + env.token_expiry
      (.ok { token := env.new_token, expires_at := expires },
       MetadataStore.store_token s1 env.new_token expires env.now)

/-- `AuthManager::validate_token` delegates to the store unchanged. -/
def validate_token (s : Store) (token : String) (now : Int) : Bool × Store :=
  MetadataStore.validate_token s token now

end AuthManager

/-! ## Helper lemmas -/

/-- `find?` by path commutes with a row update that preserves paths. -/
theorem find?_map_of_path_eq {g : FileRow → FileRow}
    (hg : ∀ r, (g r).path = r.path) (p : String) (l : List FileRow) :
    (l.map g).find? (fun r => r.path == p) =
      (l.find? (fun r => r.path == p)).map g := by
  rw [List.find?_map]
  have hpred : ((fun r : FileRow => r.path == p) ∘ g) = fun r => r.path == p := by
    funext r
    simp [Function.comp, hg r]
  rw [hpred]

/-- Looking up a path after `mark_deleted` of that path returns the original
record with its tombstone set and `updated_at` refreshed. -/
theorem get_file_mark_deleted (s : Store) (p : String) (now : Int) :
    MetadataStore.get_file (MetadataStore.mark_deleted s p now) p =
      (MetadataStore.get_file s p).map
        (fun r => { r with is_deleted := true, updated_at := now }) := by
  unfold MetadataStore.get_file MetadataStore.mark_deleted
  rw [find?_map_of_path_eq (fun r => by by_cases h : r.path == p <;> simp [h])]
  cases h : s.files.find? (fun r => r.path == p) with
  | none => rfl
  | some r =>
    have hp : r.path = p := by simpa using List.find?_some h
    simp [hp]

/-- Looking up a path after `upsert_file` on an existing record for that path
returns the record refreshed in every column except `created_at`. -/
theorem get_file_upsert_existing (s : Store) (m : FileRow) (r : FileRow)
    (h : MetadataStore.get_file s m.path = some r) :
    MetadataStore.get_file (MetadataStore.upsert_file s m) m.path =
      some { r with hash := m.hash, size := m.size, mtime := m.mtime,
                    updated_at := m.updated_at, is_deleted := m.is_deleted } := by
  have hmem : r ∈ s.files := List.mem_of_find?_eq_some h
  have hp := List.find?_some h
  have hany : s.files.any (fun x => x.path == m.path) = true :=
    List.any_eq_true.mpr ⟨r, hmem, hp⟩
  unfold MetadataStore.get_file MetadataStore.upsert_file
  rw [if_pos hany]
  simp only
  rw [find?_map_of_path_eq (fun x => by by_cases hx : x.path == m.path <;> simp [hx])]
  unfold MetadataStore.get_file at h
  rw [h]
  have hpe : r.path = m.path := by simpa using hp
  simp [hpe]

/-- `delete_file` always reports success: the filesystem removal is
best-effort and `mark_deleted` succeeds whether or not a row matched. -/
theorem delete_file_ok (env : SvcEnv) (w : World) (p : String) :
    (FileService.delete_file env w p).1 = .ok () := by
  unfold FileService.delete_file
  by_cases h : env.removeOk <;> simp [h]

/-- The store component after `delete_file` is `mark_deleted` of the original
store: the best-effort removal branch only touches the filesystem. -/
theorem delete_file_store (env : SvcEnv) (w : World) (p : String) :
    (FileService.delete_file env w p).2.store =
      MetadataStore.mark_deleted w.store p env.now := by
  unfold FileService.delete_file
  by_cases h : env.removeOk <;> simp [h]

/-! ## Claim theorems -/

/-- C9: `upsert_file` on a path that already has a row keeps that row's
stored `created_at` — the conflict-update path refreshes hash, size, mtime,
`updated_at` and `is_deleted` only, even when the supplied record carries a
different `created_at`. -/
theorem upsert_file_preserves_created_at (s : Store) (m : FileRow) (r : FileRow)
    (h : MetadataStore.get_file s m.path = some r) :
    ∃ r', MetadataStore.get_file (MetadataStore.upsert_file s m) m.path = some r' ∧
      r'.created_at = r.created_at ∧ r'.hash = m.hash ∧ r'.size = m.size ∧
      r'.mtime = m.mtime ∧ r'.updated_at = m.updated_at ∧
      r'.is_deleted = m.is_deleted := by
  exact ⟨_, get_file_upsert_existing s m r h, rfl, rfl, rfl, rfl, rfl, rfl⟩

/-- Witness for C9: a store holding one row for path `"a"` with
`created_at = 1`; the upserted record carries `created_at = 99`, yet the
stored row keeps `created_at = 1`. -/
theorem upsert_file_preserves_created_at_witness :
    ∃ r', MetadataStore.get_file
        (MetadataStore.upsert_file
          { files := [{ path := "a", hash := "h0", size := 1, mtime := 2,
                        created_at := 1, updated_at := 2, is_deleted := false }] }
          { path := "a", hash := "h1", size := 5, mtime := 7,
            created_at := 99, updated_at := 8, is_deleted := false }) "a" = some r' ∧
      r'.created_at = ({ path := "a", hash := "h0", size := 1, mtime := 2,
                         created_at := 1, updated_at := 2,
                         is_deleted := false } : FileRow).created_at ∧
      r'.hash = "h1" ∧ r'.size = 5 ∧ r'.mtime = 7 ∧ r'.updated_at = 8 ∧
      r'.is_deleted = false :=
  upsert_file_preserves_created_at
    { files := [{ path := "a", hash := "h0", size := 1, mtime := 2,
                  created_at := 1, updated_at := 2, is_deleted := false }] }
    { path := "a", hash := "h1", size := 5, mtime := 7,
      created_at := 99, updated_at := 8, is_deleted := false }
    { path := "a", hash := "h0", size := 1, mtime := 2,
      created_at := 1, updated_at := 2, is_deleted := false }
    (by decide)

/-- C3: for every cursor `T`, `get_sync_state(T).files` contains exactly the
file records with `updated_at > T`; tombstoned records pass the filter like
any other record. -/
theorem get_sync_state_delta (w : World) (T now : Int) (f : FileRow) :
    f ∈ (SyncService.get_sync_state w (some T) now).files ↔
      f ∈ w.store.files ∧ T < f.updated_at := by
  simp [SyncService.get_sync_state, FileService.get_changed_since,
        MetadataStore.get_all_files, List.mem_filter]

/-- C8: `validate_token` answers with a boolean, not an error: every token
whose stored `expires_at` is in the past yields `false` with the store
untouched; a token that was never stored also yields `false`; and when a row
for the token exists with `expires_at > now`, the call returns `true` and
stamps that token's `last_used` with the current time. -/
theorem validate_token_spec (s : Store) (t : String) (now : Int) :
    ((∀ r ∈ s.tokens, r.token = t → r.expires_at < now) →
      MetadataStore.validate_token s t now = (false, s)) ∧
    ((∀ r ∈ s.tokens, r.token ≠ t) →
      MetadataStore.validate_token s t now = (false, s)) ∧
    ((∃ r ∈ s.tokens, r.token = t ∧ now < r.expires_at) →
      (MetadataStore.validate_token s t now).1 = true ∧
      ∀ r ∈ (MetadataStore.validate_token s t now).2.tokens,
        r.token = t → r.last_used = some now) := by
  refine ⟨fun hexp => ?_, fun hunk => ?_, fun hok => ?_⟩
  · have hnone : s.tokens.find?
        (fun r => r.token == t && decide (now < r.expires_at)) = none := by
      rw [List.find?_eq_none]
      intro x hx hpx
      simp only [Bool.and_eq_true, beq_iff_eq, decide_eq_true_eq] at hpx
      exact absurd hpx.2 (not_lt.mpr (le_of_lt (hexp x hx hpx.1)))
    unfold MetadataStore.validate_token
    rw [hnone]
  · have hnone : s.tokens.find?
        (fun r => r.token == t && decide (now < r.expires_at)) = none := by
      rw [List.find?_eq_none]
      intro x hx hpx
      simp only [Bool.and_eq_true, beq_iff_eq, decide_eq_true_eq] at hpx
      exact absurd hpx.1 (hunk x hx)
    unfold MetadataStore.validate_token
    rw [hnone]
  · obtain ⟨r, hr, hrt, hre⟩ := hok
    have hsome : (s.tokens.find?
        (fun r => r.token == t && decide (now < r.expires_at))).isSome := by
      rw [List.find?_isSome]
      exact ⟨r, hr, by simp [hrt, hre]⟩
    obtain ⟨r', hr'⟩ := Option.isSome_iff_exists.mp hsome
    unfold MetadataStore.validate_token
    rw [hr']
    refine ⟨rfl, ?_⟩
    intro x hx hxt
    obtain ⟨y, hy, rfl⟩ := List.mem_map.mp hx
    by_cases hyt : y.token = t
    · simp [hyt]
    · exfalso
      apply hyt
      by_cases hb : y.token == t
      · simpa using hb
      · simp only [hb, if_neg, Bool.false_eq_true, if_false] at hxt
        exact absurd hxt hyt

/-- Witness for C8: an expired token (`expires_at = 5 < now = 10`) yields
`false`; a live token (`expires_at = 20 > now = 10`) yields `true` with
`last_used` stamped. -/
theorem validate_token_spec_witness :
    (MetadataStore.validate_token
        { tokens := [{ token := "t1", created_at := 0, expires_at := 5,
                       last_used := none }] } "t1" 10 =
      (false, { tokens := [{ token := "t1", created_at := 0, expires_at := 5,
                             last_used := none }] })) ∧
    ((MetadataStore.validate_token
        { tokens := [{ token := "t2", created_at := 0, expires_at := 20,
                       last_used := none }] } "t2" 10).1 = true ∧
      ∀ r ∈ (MetadataStore.validate_token
        { tokens := [{ token := "t2", created_at := 0, expires_at := 20,
                       last_used := none }] } "t2" 10).2.tokens,
        r.token = "t2" → r.last_used = some 10) :=
  ⟨(validate_token_spec
      { tokens := [{ token := "t1", created_at := 0, expires_at := 5,
                     last_used := none }] } "t1" 10).1 (by decide),
   (validate_token_spec
      { tokens := [{ token := "t2", created_at := 0, expires_at := 20,
                     last_used := none }] } "t2" 10).2.2
     ⟨{ token := "t2", created_at := 0, expires_at := 20, last_used := none },
      by decide, rfl, by decide⟩⟩

/-- C7: when the Content Store write inside `put_file` fails, the call
returns the write error and the whole world — the metadata store for the
path in particular — is exactly as before: no upsert is attempted. -/
theorem put_file_write_failure_atomic (env : SvcEnv) (w : World) (p : String)
    (c : List Nat) (cm : Option Int) (hw : env.writeOk = false) :
    FileService.put_file env w p c cm = (.error env.writeErr, w) := by
  unfold FileService.put_file
  rw [hw]
  rfl

/-- Witness for C7: a failing write on a world holding a record for `"a"`
leaves everything unchanged. -/
theorem put_file_write_failure_atomic_witness :
    FileService.put_file { writeOk := false }
        { store := { files := [{ path := "a", hash := "h", size := 1,
                                 mtime := 1, created_at := 1, updated_at := 1,
                                 is_deleted := false }] } } "a" [104] none =
      (.error "write failed",
       { store := { files := [{ path := "a", hash := "h", size := 1,
                                mtime := 1, created_at := 1, updated_at := 1,
                                is_deleted := false }] } }) :=
  put_file_write_failure_atomic { writeOk := false }
    { store := { files := [{ path := "a", hash := "h", size := 1, mtime := 1,
                             created_at := 1, updated_at := 1,
                             is_deleted := false }] } } "a" [104] none rfl

/-- C4 counterexample: on an empty store, `delete("a")` still reports success
(the filesystem removal failure is only logged and `UPDATE files` matching
zero rows is a successful statement), yet `list_files()` contains no record
at all for `"a"` — the claim's universally quantified form fails for paths
that were never written. -/
theorem delete_file_missing_path_no_record :
    (FileService.delete_file { now := 3, removeOk := false } {} "a").1 = .ok () ∧
    FileService.list_files
      (FileService.delete_file { now := 3, removeOk := false } {} "a").2 = [] := by
  constructor
  · rfl
  · rfl

/-- C4 (amended to paths that have a metadata record): after `delete(p)`
succeeds, `get(p)` fails with the not-found error and `list_files()` still
includes a record for `p` with `is_deleted = true`. -/
theorem delete_file_tombstone_visible (env : SvcEnv) (w : World) (p : String)
    (r : FileRow) (h : MetadataStore.get_file w.store p = some r) :
    (FileService.delete_file env w p).1 = .ok () ∧
    FileService.get_file (FileService.delete_file env w p).2 p =
      .error "File not found" ∧
    ∃ r' ∈ FileService.list_files (FileService.delete_file env w p).2,
      r'.path = p ∧ r'.is_deleted = true := by
  have hstore := delete_file_store env w p
  refine ⟨delete_file_ok env w p, ?_, ?_⟩
  · unfold FileService.get_file
    rw [hstore, get_file_mark_deleted, h]
    rfl
  · have hmem : r ∈ w.store.files := List.mem_of_find?_eq_some h
    have hp : r.path = p := by simpa using List.find?_some h
    refine ⟨{ r with is_deleted := true, updated_at := env.now }, ?_, hp, rfl⟩
    unfold FileService.list_files MetadataStore.get_all_files
    rw [hstore]
    unfold MetadataStore.mark_deleted
    simp only
    have : ({ r with is_deleted := true, updated_at := env.now } : FileRow) =
        (fun x : FileRow => if x.path == p then
            { x with is_deleted := true, updated_at := env.now } else x) r := by
      simp [hp]
    rw [this]
    exact List.mem_map_of_mem _ hmem

/-- Witness for C4: a world holding one live record for `"a"`. -/
theorem delete_file_tombstone_visible_witness :
    (FileService.delete_file { now := 3 }
        { store := { files := [{ path := "a", hash := "h", size := 2,
                                 mtime := 1, created_at := 1, updated_at := 1,
                                 is_deleted := false }] } } "a").1 = .ok () ∧
    FileService.get_file
      (FileService.delete_file { now := 3 }
        { store := { files := [{ path := "a", hash := "h", size := 2,
                                 mtime := 1, created_at := 1, updated_at := 1,
                                 is_deleted := false }] } } "a").2 "a" =
      .error "File not found" ∧
    ∃ r' ∈ FileService.list_files
        (FileService.delete_file { now := 3 }
          { store := { files := [{ path := "a", hash := "h", size := 2,
                                   mtime := 1, created_at := 1, updated_at := 1,
                                   is_deleted := false }] } } "a").2,
      r'.path = "a" ∧ r'.is_deleted = true :=
  delete_file_tombstone_visible { now := 3 }
    { store := { files := [{ path := "a", hash := "h", size := 2, mtime := 1,
                             created_at := 1, updated_at := 1,
                             is_deleted := false }] } } "a"
    { path := "a", hash := "h", size := 2, mtime := 1, created_at := 1,
      updated_at := 1, is_deleted := false } (by decide)

/-- C5 counterexample: deleting note `"n1"` (whose record exists) while the
physical removal fails makes `NoteService::delete_note` return the removal
error with the world untouched — no tombstone is written and the call does
not report success, contrary to the claim's "file or note" generalisation. -/
theorem note_delete_remove_failure_aborts :
    (NoteService.delete_note { now := 9, removeOk := false }
        { store := { notes := [{ id := "n1", path := "n1.md", title := "T",
                                 hash := "h", created_at := 1, updated_at := 1,
                                 is_deleted := false }] } } "n1") =
      (.error "remove failed",
       { store := { notes := [{ id := "n1", path := "n1.md", title := "T",
                                hash := "h", created_at := 1, updated_at := 1,
                                is_deleted := false }] } }) := by
  rfl

/-- C5 (amended): the two delete paths differ.  For a file whose record
exists, a failed physical removal is only logged: the tombstone is still
written and the call succeeds.  For a note whose record exists, a failed
physical removal aborts the call before the tombstone: the error is returned
and the state is unchanged. -/
theorem delete_physical_failure_split (env : SvcEnv) (w : World) (p id : String)
    (r : FileRow) (n : NoteMetadata)
    (hf : MetadataStore.get_file w.store p = some r)
    (hn : MetadataStore.get_note w.store id = some n)
    (hrm : env.removeOk = false) :
    ((FileService.delete_file env w p).1 = .ok () ∧
      ∃ r' ∈ (FileService.delete_file env w p).2.store.files,
        r'.path = p ∧ r'.is_deleted = true) ∧
    ((NoteService.delete_note env w id).1 = .error env.removeErr ∧
      (NoteService.delete_note env w id).2 = w) := by
  constructor
  · refine ⟨delete_file_ok env w p, ?_⟩
    have hstore := delete_file_store env w p
    have hmem : r ∈ w.store.files := List.mem_of_find?_eq_some hf
    have hp : r.path = p := by simpa using List.find?_some hf
    refine ⟨{ r with is_deleted := true, updated_at := env.now }, ?_, hp, rfl⟩
    rw [hstore]
    unfold MetadataStore.mark_deleted
    simp only
    have : ({ r with is_deleted := true, updated_at := env.now } : FileRow) =
        (fun x : FileRow => if x.path == p then
            { x with is_deleted := true, updated_at := env.now } else x) r := by
      simp [hp]
    rw [this]
    exact List.mem_map_of_mem _ hmem
  · unfold NoteService.delete_note
    rw [hn, hrm]
    exact ⟨rfl, rfl⟩

/-- Witness for C5: a world with one file record and one note record, with
the physical removal failing. -/
theorem delete_physical_failure_split_witness :
    ((FileService.delete_file { now := 9, removeOk := false }
        { store := { files := [{ path := "a", hash := "h", size := 2,
                                 mtime := 1, created_at := 1, updated_at := 1,
                                 is_deleted := false }],
                     notes := [{ id := "n1", path := "n1.md", title := "T",
                                 hash := "h", created_at := 1, updated_at := 1,
                                 is_deleted := false }] } } "a").1 = .ok () ∧
      ∃ r' ∈ (FileService.delete_file { now := 9, removeOk := false }
        { store := { files := [{ path := "a", hash := "h", size := 2,
                                 mtime := 1, created_at := 1, updated_at := 1,
                                 is_deleted := false }],
                     notes := [{ id := "n1", path := "n1.md", title := "T",
                                 hash := "h", created_at := 1, updated_at := 1,
                                 is_deleted := false }] } } "a").2.store.files,
        r'.path = "a" ∧ r'.is_deleted = true) ∧
    ((NoteService.delete_note { now := 9, removeOk := false }
        { store := { files := [{ path := "a", hash := "h", size := 2,
                                 mtime := 1, created_at := 1, updated_at := 1,
                                 is_deleted := false }],
                     notes := [{ id := "n1", path := "n1.md", title := "T",
                                 hash := "h", created_at := 1, updated_at := 1,
                                 is_deleted := false }] } } "n1").1 =
        .error "remove failed" ∧
      (NoteService.delete_note { now := 9, removeOk := false }
        { store := { files := [{ path := "a", hash := "h", size := 2,
                                 mtime := 1, created_at := 1, updated_at := 1,
                                 is_deleted := false }],
                     notes := [{ id := "n1", path := "n1.md", title := "T",
                                 hash := "h", created_at := 1, updated_at := 1,
                                 is_deleted := false }] } } "n1").2 =
        { store := { files := [{ path := "a", hash := "h", size := 2,
                                 mtime := 1, created_at := 1, updated_at := 1,
                                 is_deleted := false }],
                     notes := [{ id := "n1", path := "n1.md", title := "T",
                                 hash := "h", created_at := 1, updated_at := 1,
                                 is_deleted := false }] } }) :=
  delete_physical_failure_split { now := 9, removeOk := false }
    { store := { files := [{ path := "a", hash := "h", size := 2, mtime := 1,
                             created_at := 1, updated_at := 1,
                             is_deleted := false }],
                 notes := [{ id := "n1", path := "n1.md", title := "T",
                             hash := "h", created_at := 1, updated_at := 1,
                             is_deleted := false }] } } "a" "n1"
    { path := "a", hash := "h", size := 2, mtime := 1, created_at := 1,
      updated_at := 1, is_deleted := false }
    { id := "n1", path := "n1.md", title := "T", hash := "h", tags := [],
      created_at := 1, updated_at := 1, is_deleted := false }
    (by decide) (by decide) rfl

/-- C6: `put(p, bytes, client_mtime?)` on a path that already has a record
(tombstoned or not), for either shape of the optional mtime argument:
preserves the record's original `created_at`; the bytes reach the Content
Store before the metadata is touched (a failed write returns its error with
the world unchanged); the client-supplied mtime, when given, is applied to
the stored content and to the metadata; and the upserted metadata carries
the hash and size computed from the bytes. -/
theorem put_file_existing_record (env : SvcEnv) (w : World) (p : String)
    (c : List Nat) (cm : Option Int) (r : FileRow)
    (hget : MetadataStore.get_file w.store p = some r)
    (hs : env.setMtimeOk = true) :
    (env.writeOk = false →
      FileService.put_file env w p c cm = (.error env.writeErr, w)) ∧
    (env.writeOk = true → ∃ meta w',
      FileService.put_file env w p c cm = (.ok meta, w') ∧
      meta.created_at = r.created_at ∧
      meta.hash = env.hash_bytes c ∧
      meta.size = (c.length : Int) ∧
      (∀ t, cm = some t → meta.mtime = t ∧ fsMtime w'.fs p = some t) ∧
      fsRead w'.fs p = some c ∧
      MetadataStore.get_file w'.store p =
        some { r with hash := env.hash_bytes c, size := (c.length : Int),
                      mtime := meta.mtime, updated_at := env.now,
                      is_deleted := false }) := by
  refine ⟨fun hw => ?_, fun hw => ?_⟩
  · unfold FileService.put_file
    rw [hw]
    rfl
  · cases cm with
    | none =>
      unfold FileService.put_file
      rw [hget, hw]
      simp only [Bool.not_true, Bool.false_eq_true, if_false,
        Option.isSome_none, Bool.false_and, Option.getD_none]
      refine ⟨_, _, rfl, rfl, rfl, rfl, ?_, ?_, ?_⟩
      · intro t ht
        exact absurd ht (by simp)
      · simp [fsRead, fsWrite]
      · exact get_file_upsert_existing w.store _ r hget
    | some mt =>
      unfold FileService.put_file
      rw [hget, hw, hs]
      simp only [Bool.not_true, Bool.and_false, Bool.false_eq_true, if_false,
        Option.isSome_some, Bool.true_and, Option.getD_some]
      refine ⟨_, _, rfl, rfl, rfl, rfl, ?_, ?_, ?_⟩
      · intro t ht
        cases ht
        refine ⟨rfl, ?_⟩
        simp [fsMtime, fsSetMtime, fsWrite]
      · simp [fsRead, fsSetMtime, fsWrite]
      · exact get_file_upsert_existing w.store _ r hget

/-- Witness for C6: a world holding a tombstoned record for `"a"` with
`created_at = 1`; a put of the two bytes `[104, 105]` with client mtime 42
succeeds, keeps `created_at = 1`, stores hash and size of the bytes, and
leaves the bytes and the mtime in the Content Store. -/
theorem put_file_existing_record_witness :
    ((({ now := 50, writeMtime := 7,
         hash_bytes := fun b => toString b.length } : SvcEnv).writeOk = false →
      FileService.put_file
        { now := 50, writeMtime := 7, hash_bytes := fun b => toString b.length }
        { store := { files := [{ path := "a", hash := "old", size := 9,
                                 mtime := 2, created_at := 1, updated_at := 2,
                                 is_deleted := true }] } } "a" [104, 105]
        (some 42) =
      (.error "write failed",
       { store := { files := [{ path := "a", hash := "old", size := 9,
                                mtime := 2, created_at := 1, updated_at := 2,
                                is_deleted := true }] } })) ∧
    (({ now := 50, writeMtime := 7,
        hash_bytes := fun b => toString b.length } : SvcEnv).writeOk = true →
      ∃ meta w',
        FileService.put_file
          { now := 50, writeMtime := 7,
            hash_bytes := fun b => toString b.length }
          { store := { files := [{ path := "a", hash := "old", size := 9,
                                   mtime := 2, created_at := 1, updated_at := 2,
                                   is_deleted := true }] } } "a" [104, 105]
          (some 42) = (.ok meta, w') ∧
        meta.created_at = ({ path := "a", hash := "old", size := 9, mtime := 2,
                             created_at := 1, updated_at := 2,
                             is_deleted := true } : FileRow).created_at ∧
        meta.hash = toString ([104, 105] : List Nat).length ∧
        meta.size = (([104, 105] : List Nat).length : Int) ∧
        (∀ t, (some 42 : Option Int) = some t →
          meta.mtime = t ∧ fsMtime w'.fs "a" = some t) ∧
        fsRead w'.fs "a" = some [104, 105] ∧
        MetadataStore.get_file w'.store "a" =
          some { path := "a", hash := toString ([104, 105] : List Nat).length,
                 size := (([104, 105] : List Nat).length : Int),
                 mtime := meta.mtime, created_at := 1, updated_at := 50,
                 is_deleted := false })) :=
  put_file_existing_record
    { now := 50, writeMtime := 7, hash_bytes := fun b => toString b.length }
    { store := { files := [{ path := "a", hash := "old", size := 9, mtime := 2,
                             created_at := 1, updated_at := 2,
                             is_deleted := true }] } } "a" [104, 105] (some 42)
    { path := "a", hash := "old", size := 9, mtime := 2, created_at := 1,
      updated_at := 2, is_deleted := true } (by decide) rfl

/-- C2: challenges are single-use and consumed on lookup.  For any
`verify_challenge` call that finds its valid (matching, non-expired)
challenge row, the row is deleted before the signature is checked: no
challenge with that value survives the call, every later `verify_challenge`
with the same challenge fails with the invalid-or-expired error whatever
signature it carries, and the first call itself fails with the
signature error when only the signature was wrong. -/
theorem verify_challenge_consume_on_lookup (env : AuthEnv) (s : Store)
    (ch pk sig : String)
    (hex : ∃ c ∈ s.challenges,
      c.challenge = ch ∧ c.public_key = pk ∧ env.now < c.expires_at) :
    (∀ x ∈ (AuthManager.verify_challenge env s ⟨ch, pk, sig⟩).2.challenges,
      x.challenge ≠ ch) ∧
    (∀ env2 pk2 sig2,
      (AuthManager.verify_challenge env2
        (AuthManager.verify_challenge env s ⟨ch, pk, sig⟩).2
        ⟨ch, pk2, sig2⟩).1 = .error "Invalid or expired challenge") ∧
    (env.parse_ok pk = true → env.sig_ok pk ch sig = false →
      (AuthManager.verify_challenge env s ⟨ch, pk, sig⟩).1 =
        .error "Signature verification failed") := by
  obtain ⟨c, hc, hcc, hcp, hce⟩ := hex
  have hsome : (s.challenges.find? (fun x =>
      x.challenge == ch && x.public_key == pk &&
      decide (env.now < x.expires_at))).isSome := by
    rw [List.find?_isSome]
    exact ⟨c, hc, by simp [hcc, hcp, hce]⟩
  obtain ⟨c', hc'⟩ := Option.isSome_iff_exists.mp hsome
  have hval : MetadataStore.validate_challenge s ch pk env.now =
      (true, { s with challenges :=
        s.challenges.filter (fun x => x.challenge != ch) }) := by
    unfold MetadataStore.validate_challenge
    rw [hc']
  have hch : (AuthManager.verify_challenge env s ⟨ch, pk, sig⟩).2.challenges =
      s.challenges.filter (fun x => x.challenge != ch) := by
    unfold AuthManager.verify_challenge
    rw [hval]
    by_cases hp : env.parse_ok pk <;> by_cases hsg : env.sig_ok pk ch sig <;>
      simp [hp, hsg, MetadataStore.store_token]
  refine ⟨?_, ?_, ?_⟩
  · intro x hx
    rw [hch] at hx
    simpa using (List.mem_filter.mp hx).2
  · intro env2 pk2 sig2
    generalize hR : (AuthManager.verify_challenge env s ⟨ch, pk, sig⟩).2 = R
    rw [hR] at hch
    have hnone : R.challenges.find? (fun x =>
        x.challenge == ch && x.public_key == pk2 &&
        decide (env2.now < x.expires_at)) = none := by
      rw [List.find?_eq_none]
      intro x hx
      rw [hch] at hx
      have hne := (List.mem_filter.mp hx).2
      simp only [bne_iff_ne, ne_eq] at hne
      simp [hne]
    have hval2 : MetadataStore.validate_challenge R ch pk2 env2.now =
        (false, R) := by
      unfold MetadataStore.validate_challenge
      rw [hnone]
    unfold AuthManager.verify_challenge
    rw [hval2]
  · intro hp hsg
    unfold AuthManager.verify_challenge
    rw [hval]
    simp [hp, hsg]

/-- Witness for C2: one stored challenge `"c1"` for key `"k1"` expiring at
time 10; the verifier accepts only the signature `"good"`, and the first
attempt carries `"bad"`. -/
theorem verify_challenge_consume_on_lookup_witness :
    (∀ x ∈ (AuthManager.verify_challenge
        { now := 0, parse_ok := fun _ => true,
          sig_ok := fun _ _ sg => sg == "good", new_token := "T",
          token_expiry := 60 }
        { challenges := [{ challenge := "c1", public_key := "k1",
                           expires_at := 10 }] }
        ⟨"c1", "k1", "bad"⟩).2.challenges, x.challenge ≠ "c1") ∧
    (∀ env2 pk2 sig2,
      (AuthManager.verify_challenge env2
        (AuthManager.verify_challenge
          { now := 0, parse_ok := fun _ => true,
            sig_ok := fun _ _ sg => sg == "good", new_token := "T",
            token_expiry := 60 }
          { challenges := [{ challenge := "c1", public_key := "k1",
                             expires_at := 10 }] }
          ⟨"c1", "k1", "bad"⟩).2
        ⟨"c1", pk2, sig2⟩).1 = .error "Invalid or expired challenge") ∧
    (({ now := 0, parse_ok := fun _ => true,
        sig_ok := fun _ _ sg => sg == "good", new_token := "T",
        token_expiry := 60 } : AuthEnv).parse_ok "k1" = true →
      ({ now := 0, parse_ok := fun _ => true,
         sig_ok := fun _ _ sg => sg == "good", new_token := "T",
         token_expiry := 60 } : AuthEnv).sig_ok "k1" "c1" "bad" = false →
      (AuthManager.verify_challenge
        { now := 0, parse_ok := fun _ => true,
          sig_ok := fun _ _ sg => sg == "good", new_token := "T",
          token_expiry := 60 }
        { challenges := [{ challenge := "c1", public_key := "k1",
                           expires_at := 10 }] }
        ⟨"c1", "k1", "bad"⟩).1 = .error "Signature verification failed") :=
  verify_challenge_consume_on_lookup
    { now := 0, parse_ok := fun _ => true,
      sig_ok := fun _ _ sg => sg == "good", new_token := "T",
      token_expiry := 60 }
    { challenges := [{ challenge := "c1", public_key := "k1",
                       expires_at := 10 }] }
    "c1" "k1" "bad"
    ⟨{ challenge := "c1", public_key := "k1", expires_at := 10 },
     by decide, rfl, rfl, by decide⟩

/-- C1: the tag-count invariant FAILS in the code.  Concrete run: a store
with one note `"n1"` carrying tag `"x"`; after `delete_note("n1")` every
note is tombstoned, yet `get_all_tags()` still reports `x` with count 1 —
the stale `note_tags` link survives the tombstone and `COUNT(nt.note_id)`
counts it, because the query's `LEFT JOIN notes ... AND n.is_deleted = 0`
can only NULL the note columns, never drop the link row.  The claim (and the
spec, which says stale links "must not inflate any tag's count") describes
the evident intent of that join; counting `n.id` instead of `nt.note_id`
would implement it. -/
theorem get_all_tags_counts_tombstoned_links :
    (∀ n ∈ (MetadataStore.delete_note
        { notes := [{ id := "n1", path := "n1.md", title := "T", hash := "h",
                      created_at := 0, updated_at := 0, is_deleted := false }],
          tags := [{ id := 1, name := "x" }],
          note_tags := [{ note_id := "n1", tag_id := 1 }],
          fts := [{ note_id := "n1", title := "T", content := "body" }] }
        "n1" 5).notes, n.is_deleted = true) ∧
    MetadataStore.get_all_tags (MetadataStore.delete_note
        { notes := [{ id := "n1", path := "n1.md", title := "T", hash := "h",
                      created_at := 0, updated_at := 0, is_deleted := false }],
          tags := [{ id := 1, name := "x" }],
          note_tags := [{ note_id := "n1", tag_id := 1 }],
          fts := [{ note_id := "n1", title := "T", content := "body" }] }
        "n1" 5) = [{ name := "x", count := 1 }] := by
  decide

/-- C10: `list_notes(options)` paginates after filtering.  For in-range
(`i64`, non-negative) limit and offset: the reported `total` is the number of
notes matching the chosen filter (search, tag, or all); at most `limit`
items are returned; with offset 0 and a limit at least the match count,
every matching note is returned (in order, as list items); and in general
the returned list is exactly the window of the filtered sequence starting at
`offset` — its length is `min limit (matches - offset)` and its `i`-th item
is the item of the `offset + i`-th filtered note. -/
theorem list_notes_paginates_after_filtering (env : SvcEnv) (w : World)
    (o : NoteService.ListOptions)
    (h1 : 0 ≤ o.offset) (h2 : 0 ≤ o.limit)
    (h3 : o.offset < 2 ^ 63) (h4 : o.limit < 2 ^ 63) :
    (NoteService.list_notes env w o).total =
      ((NoteService.filtered_notes env w.store o).length : Int) ∧
    (NoteService.list_notes env w o).notes.length ≤ o.limit.toNat ∧
    (o.offset = 0 →
      ((NoteService.filtered_notes env w.store o).length : Int) ≤ o.limit →
      (NoteService.list_notes env w o).notes =
        (NoteService.filtered_notes env w.store o).map
          (NoteService.note_item env w)) ∧
    (NoteService.list_notes env w o).notes.length =
      min o.limit.toNat
        ((NoteService.filtered_notes env w.store o).length - o.offset.toNat) ∧
    (∀ i : Nat, i < (NoteService.list_notes env w o).notes.length →
      (NoteService.list_notes env w o).notes[i]? =
        ((NoteService.filtered_notes env w.store o)[o.offset.toNat + i]?).map
          (NoteService.note_item env w)) := by
  have hco : NoteService.castSize o.offset = o.offset.toNat := by
    unfold NoteService.castSize
    rw [Int.emod_eq_of_lt h1 (lt_trans h3 (by norm_num))]
  have hcl : NoteService.castSize o.limit = o.limit.toNat := by
    unfold NoteService.castSize
    rw [Int.emod_eq_of_lt h2 (lt_trans h4 (by norm_num))]
  have hon : o.offset.toNat < 2 ^ 63 := by omega
  have hln : o.limit.toNat < 2 ^ 63 := by omega
  have hmod : (o.offset.toNat + o.limit.toNat) % 2 ^ 64 =
      o.offset.toNat + o.limit.toNat := by
    apply Nat.mod_eq_of_lt
    calc o.offset.toNat + o.limit.toNat < 2 ^ 63 + 2 ^ 63 := by omega
    _ = 2 ^ 64 := by norm_num
  refine ⟨rfl, ?_, ?_, ?_, ?_⟩
  · unfold NoteService.list_notes
    simp only [hco, hcl, hmod, List.length_map, List.length_take,
      List.length_drop]
    omega
  · intro h0 hlim
    have hle : (NoteService.filtered_notes env w.store o).length ≤
        o.limit.toNat := by omega
    have hc0 : NoteService.castSize 0 = 0 := by decide
    unfold NoteService.list_notes
    simp only [hco, hcl, hmod, h0, hc0, Int.toNat_zero, Nat.zero_add,
      List.drop_zero, Nat.sub_zero]
    rw [Nat.mod_eq_of_lt (by omega), min_eq_right hle, List.take_length]
  · unfold NoteService.list_notes
    simp only [hco, hcl, hmod, List.length_map, List.length_take,
      List.length_drop]
    omega
  · intro i hi
    unfold NoteService.list_notes at hi ⊢
    simp only [hco, hcl, hmod, List.length_map, List.length_take,
      List.length_drop] at hi
    simp only [hco, hcl, hmod, List.getElem?_map]
    rw [List.getElem?_take_of_lt (by omega), List.getElem?_drop]

/-- Witness for C10: the default options (limit 50, offset 0) on a store
holding one live note return that note and report total 1. -/
theorem list_notes_paginates_after_filtering_witness :
    (NoteService.list_notes {}
        { store := { notes := [{ id := "n1", path := "n1.md", title := "T",
                                 hash := "h", created_at := 1, updated_at := 2,
                                 is_deleted := false }] } } {}).total =
      ((NoteService.filtered_notes {}
          ({ store := { notes := [{ id := "n1", path := "n1.md", title := "T",
                                    hash := "h", created_at := 1,
                                    updated_at := 2,
                                    is_deleted := false }] } } : World).store
          {}).length : Int) ∧
    (NoteService.list_notes {}
        { store := { notes := [{ id := "n1", path := "n1.md", title := "T",
                                 hash := "h", created_at := 1, updated_at := 2,
                                 is_deleted := false }] } }
        {}).notes.length ≤ (({} : NoteService.ListOptions)).limit.toNat ∧
    ((({} : NoteService.ListOptions)).offset = 0 →
      ((NoteService.filtered_notes {}
          ({ store := { notes := [{ id := "n1", path := "n1.md", title := "T",
                                    hash := "h", created_at := 1,
                                    updated_at := 2,
                                    is_deleted := false }] } } : World).store
          {}).length : Int) ≤ (({} : NoteService.ListOptions)).limit →
      (NoteService.list_notes {}
          { store := { notes := [{ id := "n1", path := "n1.md", title := "T",
                                   hash := "h", created_at := 1,
                                   updated_at := 2,
                                   is_deleted := false }] } } {}).notes =
        (NoteService.filtered_notes {}
            ({ store := { notes := [{ id := "n1", path := "n1.md",
                                      title := "T", hash := "h",
                                      created_at := 1, updated_at := 2,
                                      is_deleted := false }] } } : World).store
            {}).map
          (NoteService.note_item {}
            { store := { notes := [{ id := "n1", path := "n1.md", title := "T",
                                     hash := "h", created_at := 1,
                                     updated_at := 2,
                                     is_deleted := false }] } })) ∧
    (NoteService.list_notes {}
        { store := { notes := [{ id := "n1", path := "n1.md", title := "T",
                                 hash := "h", created_at := 1, updated_at := 2,
                                 is_deleted := false }] } } {}).notes.length =
      min (({} : NoteService.ListOptions)).limit.toNat
        ((NoteService.filtered_notes {}
            ({ store := { notes := [{ id := "n1", path := "n1.md", title := "T",
                                      hash := "h", created_at := 1,
                                      updated_at := 2,
                                      is_deleted := false }] } } : World).store
            {}).length - (({} : NoteService.ListOptions)).offset.toNat) ∧
    (∀ i : Nat, i < (NoteService.list_notes {}
        { store := { notes := [{ id := "n1", path := "n1.md", title := "T",
                                 hash := "h", created_at := 1, updated_at := 2,
                                 is_deleted := false }] } } {}).notes.length →
      (NoteService.list_notes {}
          { store := { notes := [{ id := "n1", path := "n1.md", title := "T",
                                   hash := "h", created_at := 1,
                                   updated_at := 2,
                                   is_deleted := false }] } } {}).notes[i]? =
        ((NoteService.filtered_notes {}
            ({ store := { notes := [{ id := "n1", path := "n1.md", title := "T",
                                      hash := "h", created_at := 1,
                                      updated_at := 2,
                                      is_deleted := false }] } } : World).store
            {})[(({} : NoteService.ListOptions)).offset.toNat + i]?).map
          (NoteService.note_item {}
            { store := { notes := [{ id := "n1", path := "n1.md", title := "T",
                                     hash := "h", created_at := 1,
                                     updated_at := 2,
                                     is_deleted := false }] } })) :=
  list_notes_paginates_after_filtering {}
    { store := { notes := [{ id := "n1", path := "n1.md", title := "T",
                             hash := "h", created_at := 1, updated_at := 2,
                             is_deleted := false }] } } {}
    (by norm_num) (by norm_num) (by norm_num) (by norm_num)

end SapCloud
